import Mathlib

/-!
Shallow embedding of the linkding-to-opml discovery/processing core:
the discovery result cache (internal/cache), the HTTP fetch layer and
feed parser (internal/feeds), the export-side bookmark processor
(internal/feeds/processor.go), and the import-side worker pool
(internal/importer).  Network and remote-service effects are passed in
as explicit oracle functions; machine time is an explicit parameter.
-/

namespace LinkdingToOpml

/-! ## String helpers (Go strings package operations used by the code) -/

/-- Go strings.Contains: a string contains a non-empty pattern exactly
when splitting on the pattern yields at least two pieces. -/
def strContains (s pat : String) : Bool :=
  (s.splitOn pat).length ≥ 2

/-- Go strings.TrimSuffix: drop one trailing occurrence of pat, if present. -/
def trimOneSuffix (s pat : String) : String :=
  if pat.data.isSuffixOf s.data then
    String.mk (s.data.take (s.data.length - pat.data.length))
  else s

/-- Whitespace characters Go strings.TrimSpace removes (ASCII range). -/
def isSpaceGo (c : Char) : Bool :=
  c = ' ' || c = '\t' || c = '\n' || c = '\r'

/-- Go strings.TrimSpace: remove leading and trailing whitespace. -/
def trimSpace (s : String) : String :=
  String.mk (((s.data.dropWhile isSpaceGo).reverse.dropWhile isSpaceGo).reverse)

/-! ## Discovery result cache (internal/cache, src/unnamed/part_006) -/

/-- CacheEntry from part_006: one cached feed-discovery result.
Timestamps are in nanoseconds (Go time.Time), modelled as Nat. -/
structure CacheEntry where
  url : String
  feedURL : String
  feedTitle : String
  timestamp : Nat
deriving DecidableEq, Repr

/-- Nanoseconds per hour: time.Duration(maxAgeHours) * time.Hour. -/
def nsPerHour : Int := 3600 * 1000000000

/-- The Go map[string]*CacheEntry, as an association list. -/
abbrev CacheMap := List (String × CacheEntry)

/-- Go map lookup. -/
def mapGet (m : CacheMap) (url : String) : Option CacheEntry :=
  match m with
  | [] => none
  | (k, v) :: rest => if k == url then some v else mapGet rest url

/-- Go map upsert: replace in place when the key exists, append otherwise. -/
def mapSet (m : CacheMap) (url : String) (e : CacheEntry) : CacheMap :=
  match m with
  | [] => [(url, e)]
  | (k, v) :: rest => if k == url then (url, e) :: rest else (k, v) :: mapSet rest url e

/-- Cache from part_006 (the lock is a concurrency artifact, not modelled). -/
structure Cache where
  entries : CacheMap
  filePath : String
deriving Repr

/-- NewCache from part_006: empty entry map. -/
def NewCache (filePath : String) : Cache :=
  { entries := [], filePath := filePath }

/-- isStale from part_006: the entry is older than maxAgeHours hours.
now is the current time in nanoseconds (time.Since(entry.Timestamp)). -/
def isStale (e : CacheEntry) (maxAgeHours : Int) (now : Nat) : Bool :=
  (now : Int) - (e.timestamp : Int) > maxAgeHours * nsPerHour

/-- Cache.Get from part_006: nil on absence, nil on staleness,
otherwise the fresh entry. -/
def cacheGet (m : CacheMap) (url : String) (maxAgeHours : Int) (now : Nat) :
    Option CacheEntry :=
  match mapGet m url with
  | none => none
  | some e => if isStale e maxAgeHours now then none else some e

/-- Cache.Set from part_006: upsert with the current timestamp. -/
def cacheSet (m : CacheMap) (url feedURL feedTitle : String) (now : Nat) : CacheMap :=
  mapSet m url { url := url, feedURL := feedURL, feedTitle := feedTitle, timestamp := now }

/-- Cache.SetFailed from part_006: negative entry with empty feed URL. -/
def cacheSetFailed (m : CacheMap) (url : String) (now : Nat) : CacheMap :=
  mapSet m url { url := url, feedURL := "", feedTitle := "", timestamp := now }

/-- CacheEntry.HasFeed from part_006 on a nil-able entry. -/
def hasFeedEntry (e : Option CacheEntry) : Bool :=
  match e with
  | none => false
  | some e => e.feedURL ≠ ""

/-- The three outcomes Cache.Get distinguishes internally: a hit, a miss
logged as "no entry found", and a miss logged as "entry is stale". -/
inductive CacheLookup where
  | hit (e : CacheEntry)
  | missAbsent
  | missStale
deriving DecidableEq, Repr

/-- Cache.Get's internal classification of a lookup (the code emits a
distinct debug log line for each of the three cases). -/
def cacheLookup (m : CacheMap) (url : String) (maxAgeHours : Int) (now : Nat) :
    CacheLookup :=
  match mapGet m url with
  | none => .missAbsent
  | some e => if isStale e maxAgeHours now then .missStale else .hit e

/-- The states the cache file can be in when LoadCache runs:
absent, present but unopenable, present but failing gob decode, or
present and decoding to an entry map. -/
inductive CacheFileState where
  | missing
  | unopenable
  | corrupt
  | decoded (entries : CacheMap)
deriving DecidableEq, Repr

/-- Cache.LoadCache from part_006.  A missing file and an unopenable file
both leave the entries untouched and return nil; a decode failure resets
the entries to a fresh empty map and returns nil; a successful decode
installs the decoded map (gob decodes into the lifecycle-empty map). -/
def loadCache (fs : CacheFileState) (c : Cache) : Cache × Option String :=
  match fs with
  | .missing => (c, none)
  | .unopenable => (c, none)
  | .corrupt => ({ c with entries := [] }, none)
  | .decoded m => ({ c with entries := m }, none)

/-! ## HTTP fetch layer (internal/feeds/processor.go, FetchPage) -/

/-- The response-relevant fields FetchPage inspects. -/
structure HTTPResponse where
  statusCode : Nat
  status : String
  contentEncoding : String
  body : String
deriving DecidableEq, Repr

/-- Outcome of client.Do: a transport error or a response. -/
inductive FetchOutcome where
  | requestError (msg : String)
  | response (r : HTTPResponse)
deriving DecidableEq, Repr

/-- HTTPClient.FetchPage from processor.go lines 254-325.  The gzip
decompressor is an oracle; header construction has no observable effect
on the result and is omitted.  The status check is against 200 exactly. -/
def fetchPage (gunzip : String → Except String String) (o : FetchOutcome) :
    Except String String :=
  match o with
  | .requestError m => .error ("HTTP request failed: " ++ m)
  | .response r =>
    if r.statusCode ≠ 200 then
      .error ("HTTP request failed with status " ++ toString r.statusCode ++ ": " ++ r.status)
    else if strContains r.contentEncoding "gzip" then
      match gunzip r.body with
      | .error e => .error ("failed to create gzip reader: " ++ e)
      | .ok b => .ok b
    else
      .ok r.body

/-! ## Feed content parser (internal/feeds/processor.go, parseRSSFeed) -/

/-- Well-formed XML document tree. -/
inductive Xml where
  | elem (name : String) (children : List Xml)
  | txt (s : String)

/-- The token stream Go's xml.Decoder reports for a document. -/
inductive XmlToken where
  | startTag (name : String)
  | endTag (name : String)
  | charData (s : String)
deriving DecidableEq, Repr

mutual

/-- Flatten a document into its token stream. -/
def tokensOf : Xml → List XmlToken
  | .txt s => [.charData s]
  | .elem n cs => .startTag n :: tokensOfList cs ++ [.endTag n]

/-- Token streams of a list of sibling nodes, concatenated. -/
def tokensOfList : List Xml → List XmlToken
  | [] => []
  | c :: rest => tokensOf c ++ tokensOfList rest

end

/-- Character data directly inside an element (what Go's encoding/xml
collects when unmarshalling an element into a string field: top-level
character data, nested elements skipped). -/
def childText : List Xml → String
  | [] => ""
  | .txt s :: rest => s ++ childText rest
  | .elem _ _ :: rest => childText rest

/-- The children of the last direct child element with the given name
(Go unmarshalling overwrites a struct field on each repeated element,
so the last occurrence wins). -/
def lastChildNamed (name : String) (cs : List Xml) : Option (List Xml) :=
  cs.foldl
    (fun acc c =>
      match c with
      | .elem n cc => if n == name then some cc else acc
      | .txt _ => acc)
    none

/-- Text content of the last direct child element with the given name. -/
def lastChildText (name : String) (cs : List Xml) : String :=
  match lastChildNamed name cs with
  | some cc => childText cc
  | none => ""

/-- feeds.Feed from processor.go: parsed feed metadata. -/
structure Feed where
  title : String
  description : String
  link : String
  feedType : String := ""
deriving DecidableEq, Repr

/-- Go xml.Decoder.Skip: consume tokens through the end element that
matches the most recently consumed start element. -/
def skipGo : Nat → Nat → List XmlToken → List XmlToken
  | 0, _, ts => ts
  | _, _, [] => []
  | fuel + 1, depth, t :: rest =>
    match t with
    | .startTag _ => skipGo fuel (depth + 1) rest
    | .endTag _ => if depth = 0 then rest else skipGo fuel (depth - 1) rest
    | .charData _ => skipGo fuel depth rest

/-- Go xml.Decoder.DecodeElement into a string, with the start element
already consumed: collect the element's own character data, skip nested
elements, stop after the matching end element. -/
def decodeTextGo : Nat → Nat → String → List XmlToken → String × List XmlToken
  | 0, _, acc, ts => (acc, ts)
  | _, _, acc, [] => (acc, [])
  | fuel + 1, depth, acc, t :: rest =>
    match t with
    | .charData s =>
      if depth = 0 then decodeTextGo fuel depth (acc ++ s) rest
      else decodeTextGo fuel depth acc rest
    | .startTag _ => decodeTextGo fuel (depth + 1) acc rest
    | .endTag _ => if depth = 0 then (acc, rest) else decodeTextGo fuel (depth - 1) acc rest

/-- The manual link walk from parseRSSFeed lines 486-531: token loop
with inChannel flag and depth counter, skipping image and item subtrees,
decoding a link element when inChannel and depth == 1.  Note the code
never increments depth for a link start element, while an unprocessed
link's end element still decrements it; depth is therefore an Int as in
Go.  A switch-level break in Go only leaves the switch, so a decoded
link does not stop the loop and a later candidate overwrites it. -/
def rssLinkWalk (fuel : Nat) (inChannel : Bool) (depth : Int) (link : String)
    (ts : List XmlToken) : String :=
  match fuel with
  | 0 => link
  | fuel + 1 =>
    match ts with
    | [] => link
    | .startTag n :: rest =>
      if n == "channel" then
        rssLinkWalk fuel true 1 link rest
      else if n == "image" || n == "item" then
        if inChannel then
          rssLinkWalk fuel inChannel depth link (skipGo rest.length 0 rest)
        else
          rssLinkWalk fuel inChannel depth link rest
      else if n == "link" then
        if inChannel && depth == 1 then
          match decodeTextGo rest.length 0 "" rest with
          | (txt, rest2) =>
            if txt ≠ "" then rssLinkWalk fuel inChannel depth txt rest2
            else rssLinkWalk fuel inChannel depth link rest2
        else
          rssLinkWalk fuel inChannel depth link rest
      else
        rssLinkWalk fuel inChannel (if inChannel then depth + 1 else depth) link rest
    | .endTag n :: rest =>
      if n == "channel" then
        rssLinkWalk fuel false 0 link rest
      else
        rssLinkWalk fuel inChannel (if inChannel then depth - 1 else depth) link rest
    | .charData _ :: rest => rssLinkWalk fuel inChannel depth link rest

/-- parseRSSFeed from processor.go lines 464-537: unmarshal the rss
channel (title, description, link as the last direct children of the
channel element), and when the channel link came out empty, rerun the
manual token walk; finally TrimSuffix "/" then TrimSpace the link. -/
def parseRSSFeed (doc : Xml) : Except String Feed :=
  match doc with
  | .txt _ => .error "failed to parse RSS"
  | .elem root cs =>
    if root ≠ "rss" then .error "failed to parse RSS"
    else
      let chChildren := (lastChildNamed "channel" cs).getD []
      let link0 := lastChildText "link" chChildren
      let link1 :=
        if link0 == "" then
          rssLinkWalk (tokensOf doc).length false 0 "" (tokensOf doc)
        else link0
      .ok { title := lastChildText "title" chChildren
            description := lastChildText "description" chChildren
            link := trimSpace (trimOneSuffix link1 "/")
            feedType := "" }

/-! ## Import data model (internal/importer/types.go) -/

/-- ImportStatus from types.go. -/
inductive ImportStatus where
  | pending
  | success
  | skipped
  | failed
deriving DecidableEq, Repr

/-- ImportItem from types.go: the embedded opml.FeedEntry (title,
description, xmlUrl, htmlUrl) plus discovered data and processing state.
item.Error is modelled as the error's message. -/
structure ImportItem where
  title : String := ""
  description : String := ""
  xmlURL : String := ""
  htmlURL : String := ""
  discoveredURL : String := ""
  discoveredTitle : String := ""
  discoveredDescription : String := ""
  status : ImportStatus := .pending
  errMsg : Option String := none
  wasUpdated : Bool := false
deriving DecidableEq, Repr

/-- ImportItem.UpdateWithDiscoveredData from types.go. -/
def ImportItem.updateWithDiscoveredData (item : ImportItem)
    (url title description : String) : ImportItem :=
  { item with
    discoveredURL := url
    discoveredTitle := if title ≠ "" then title else item.title
    discoveredDescription := if description ≠ "" then description else item.description }

/-- ImportItem.GetFinalURL from types.go. -/
def ImportItem.getFinalURL (item : ImportItem) : String :=
  if item.discoveredURL ≠ "" then item.discoveredURL else item.xmlURL

/-- ImportItem.GetFinalTitle from types.go. -/
def ImportItem.getFinalTitle (item : ImportItem) : String :=
  if item.discoveredTitle ≠ "" then item.discoveredTitle
  else if item.title ≠ "" then item.title
  else "Untitled"

/-- ImportItem.GetFinalDescription from types.go. -/
def ImportItem.getFinalDescription (item : ImportItem) : String :=
  if item.discoveredDescription ≠ "" then item.discoveredDescription
  else item.description

/-- ImportStats from types.go (int64 counters; timestamps omitted). -/
structure ImportStats where
  total : Int := 0
  processed : Int := 0
  imported : Int := 0
  updated : Int := 0
  skipped : Int := 0
  failed : Int := 0
deriving DecidableEq, Repr

/-- NewImportStats from types.go. -/
def NewImportStats (total : Nat) : ImportStats :=
  { total := (total : Int) }

/-! ## Reverse discovery (src/unnamed/part_008, DiscoverBookmarkURL) -/

/-- DiscoverBookmarkURL from part_008, with feeds.FetchFeed as an oracle.
Returns the updated item, the returned error, and whether the feed was
fetched over the network (tier 2 entered). -/
def DiscoverBookmarkURL (fetchFeed : String → Except String Feed)
    (item : ImportItem) : ImportItem × Option String × Bool :=
  if item.htmlURL ≠ "" ∧ item.htmlURL ≠ item.xmlURL then
    (item.updateWithDiscoveredData item.htmlURL item.title item.description, none, false)
  else if item.xmlURL ≠ "" then
    match fetchFeed item.xmlURL with
    | .ok feed =>
      if feed.link ≠ "" then
        (item.updateWithDiscoveredData feed.link
          (if feed.title ≠ "" then feed.title else item.title)
          (if feed.description ≠ "" then feed.description else item.description),
         none, true)
      else
        (item.updateWithDiscoveredData item.xmlURL item.title item.description, none, true)
    | .error _ =>
      (item.updateWithDiscoveredData item.xmlURL item.title item.description, none, true)
  else
    (item, some "no URL available for bookmark", false)

/-! ## Duplicate resolution (src/unnamed/part_007, ProcessBookmark) -/

/-- linkding.Bookmark from part_004. -/
structure Bookmark where
  id : Int := 0
  url : String := ""
  title : String := ""
  tags : List String := []
deriving DecidableEq, Repr

/-- ProcessOptions from part_007. -/
structure ProcessOptions where
  duplicateAction : String := ""
  tags : List String := []
  dryRun : Bool := false
  retryAttempts : Int := 0

/-- The linkding client's operations, as oracles. -/
structure LinkdingClient where
  getBookmarkByURL : String → Except String (Option Bookmark)
  createBookmark : String → String → String → List String → Except String Bookmark
  updateBookmark : Int → String → String → String → List String → Option String

/-- Remote-service operations ProcessBookmark can invoke. -/
inductive RemoteOp where
  | getByURL (url : String)
  | create (url title description : String) (tags : List String)
  | update (id : Int) (url title description : String) (tags : List String)
deriving DecidableEq, Repr

/-- The Info-level decision logs ProcessBookmark emits. -/
inductive LogEvent where
  | skippingDuplicate
  | wouldUpdateDryRun
  | updatedExisting
  | wouldUpdateNoClient
  | wouldCreateDryRun
  | createdNew
  | wouldCreateNoClient
deriving DecidableEq, Repr

/-- Result of one ProcessBookmark call: the mutated item, the returned
error, the remote operations invoked, and the decision logs emitted. -/
structure BookmarkOutcome where
  item : ImportItem
  errMsg : Option String
  calls : List RemoteOp
  logs : List LogEvent
deriving DecidableEq, Repr

/-- ProcessBookmark from part_007 lines 23-154.  The lookup runs only
when not in dry-run mode and a client is present; otherwise existing is
simulated as nil.  Create and update are likewise skipped in dry-run
mode or when the client is nil. -/
def ProcessBookmark (client : Option LinkdingClient) (options : ProcessOptions)
    (item : ImportItem) : BookmarkOutcome :=
  let finalURL := item.getFinalURL
  if finalURL = "" then
    { item := item, errMsg := some "no valid URL found for bookmark", calls := [], logs := [] }
  else
    let lookup : (Option Bookmark × List RemoteOp) ⊕ (String × List RemoteOp) :=
      match client with
      | some cl =>
        if options.dryRun then .inl (none, [])
        else
          match cl.getBookmarkByURL finalURL with
          | .error e => .inr ("failed to check for existing bookmark: " ++ e, [.getByURL finalURL])
          | .ok ex => .inl (ex, [.getByURL finalURL])
      | none => .inl (none, [])
    match lookup with
    | .inr (e, calls) => { item := item, errMsg := some e, calls := calls, logs := [] }
    | .inl (existing, calls) =>
      let allTags := options.tags
      match existing with
      | some ex =>
        if options.duplicateAction == "skip" then
          { item := { item with status := .skipped }, errMsg := none,
            calls := calls, logs := [.skippingDuplicate] }
        else if options.duplicateAction == "update" then
          if options.dryRun then
            { item := { item with status := .success, wasUpdated := true }, errMsg := none,
              calls := calls, logs := [.wouldUpdateDryRun] }
          else
            match client with
            | some cl =>
              let op : RemoteOp :=
                .update ex.id finalURL item.getFinalTitle item.getFinalDescription allTags
              match cl.updateBookmark ex.id finalURL item.getFinalTitle
                  item.getFinalDescription allTags with
              | some e =>
                { item := { item with status := .failed, errMsg := some e },
                  errMsg := some ("failed to update bookmark: " ++ e),
                  calls := calls ++ [op], logs := [] }
              | none =>
                { item := { item with status := .success, wasUpdated := true },
                  errMsg := none, calls := calls ++ [op], logs := [.updatedExisting] }
            | none =>
              { item := { item with status := .success, wasUpdated := true },
                errMsg := none, calls := calls, logs := [.wouldUpdateNoClient] }
        else
          { item := item, errMsg := some ("unknown duplicate action: " ++ options.duplicateAction),
            calls := calls, logs := [] }
      | none =>
        if options.dryRun then
          { item := { item with status := .success }, errMsg := none,
            calls := calls, logs := [.wouldCreateDryRun] }
        else
          match client with
          | some cl =>
            let op : RemoteOp :=
              .create finalURL item.getFinalTitle item.getFinalDescription allTags
            match cl.createBookmark finalURL item.getFinalTitle
                item.getFinalDescription allTags with
            | .error e =>
              { item := { item with status := .failed, errMsg := some e },
                errMsg := some ("failed to create bookmark: " ++ e),
                calls := calls ++ [op], logs := [] }
            | .ok _ =>
              { item := { item with status := .success }, errMsg := none,
                calls := calls ++ [op], logs := [.createdNew] }
          | none =>
            { item := { item with status := .success }, errMsg := none,
              calls := calls, logs := [.wouldCreateNoClient] }

/-! ## Retry with backoff and the import worker pool (part_007) -/

/-- The error message retryOperation returns after exhausting attempts:
fmt.Errorf("operation failed after %d attempts: %w", maxAttempts, lastErr);
when the loop never ran, lastErr is nil and %w prints its nil form. -/
def retryFailMsg (maxAttempts : Int) (lastErr : Option String) : String :=
  "operation failed after " ++ toString maxAttempts ++ " attempts: " ++
    (match lastErr with
     | some e => e
     | none => "%!w(<nil>)")

/-- The retry loop of retryOperation from part_007 lines 157-206.  The
operation takes the attempt number (network behaviour may differ per
attempt) and threads the mutable state (the item the closure mutates).
Returns the final state, the returned error, and the number of times the
operation was invoked.  Backoff sleeps have no observable effect. -/
def retryGo {σ : Type} (op : Nat → σ → σ × Option String) (maxAttempts : Int) :
    Nat → Nat → Option String → σ → σ × Option String × Nat
  | 0, _, lastErr, s => (s, some (retryFailMsg maxAttempts lastErr), 0)
  | remaining + 1, attempt, _lastErr, s =>
    match op attempt s with
    | (s2, none) => (s2, none, 1)
    | (s2, some e) =>
      match retryGo op maxAttempts remaining (attempt + 1) (some e) s2 with
      | (s3, res, n) => (s3, res, n + 1)

/-- retryOperation from part_007: attempts run while attempt ≤ maxAttempts
starting from attempt 1, so there are max(maxAttempts, 0) of them. -/
def retryOperation {σ : Type} (op : Nat → σ → σ × Option String)
    (maxAttempts : Int) (s : σ) : σ × Option String × Nat :=
  retryGo op maxAttempts maxAttempts.toNat 1 none s

/-- The per-item body of the worker loop in ProcessItems (part_007 lines
232-304): retry URL discovery; on failure mark the item failed, count
failed and processed, and move on; otherwise retry bookmark processing;
on failure mark failed; otherwise count by the item's resulting status;
finally count processed.  The two steps are oracles taking the attempt
number. -/
def processOneItem (retryAttempts : Int)
    (discoverStep processStep : Nat → ImportItem → ImportItem × Option String)
    (st : ImportStats) (item : ImportItem) : ImportStats × ImportItem :=
  match retryOperation discoverStep retryAttempts item with
  | (item1, some e, _) =>
    ({ st with failed := st.failed + 1, processed := st.processed + 1 },
     { item1 with status := .failed, errMsg := some e })
  | (item1, none, _) =>
    match retryOperation processStep retryAttempts item1 with
    | (item2, some e, _) =>
      ({ st with failed := st.failed + 1, processed := st.processed + 1 },
       { item2 with status := .failed, errMsg := some e })
    | (item2, none, _) =>
      let st1 :=
        match item2.status with
        | .success =>
          if item2.wasUpdated then { st with updated := st.updated + 1 }
          else { st with imported := st.imported + 1 }
        | .skipped => { st with skipped := st.skipped + 1 }
        | _ => st
      ({ st1 with processed := st1.processed + 1 }, item2)

/-- One worker draining its share of the closed work channel, in the
order the channel hands the items over. -/
def runWorker (retryAttempts : Int)
    (discoverStep processStep : Nat → ImportItem → ImportItem × Option String)
    (st : ImportStats) : List ImportItem → ImportStats × List ImportItem
  | [] => (st, [])
  | item :: rest =>
    match processOneItem retryAttempts discoverStep processStep st item with
    | (st2, item2) =>
      match runWorker retryAttempts discoverStep processStep st2 rest with
      | (st3, rest2) => (st3, item2 :: rest2)

/-- All workers of the pool.  The shared atomic counters commute across
workers, so any interleaving yields the counter totals of this
worker-by-worker accumulation; the argument list is the partition of the
channel's items among the workers that the scheduler produced. -/
def runWorkers (retryAttempts : Int)
    (discoverStep processStep : Nat → ImportItem → ImportItem × Option String)
    (st : ImportStats) : List (List ImportItem) → ImportStats × List (List ImportItem)
  | [] => (st, [])
  | ws :: rest =>
    match runWorker retryAttempts discoverStep processStep st ws with
    | (st2, ws2) =>
      match runWorkers retryAttempts discoverStep processStep st2 rest with
      | (st3, rest2) => (st3, ws2 :: rest2)

/-- ProcessItems from part_007 lines 209-332: stats start at
NewImportStats(len(items)); the workers drain the pre-filled channel;
the wait group releases once every worker is done.  totalItems is the
length of the input slice and the worker lists partition the channel's
items. -/
def ProcessItems (retryAttempts : Int)
    (discoverStep processStep : Nat → ImportItem → ImportItem × Option String)
    (totalItems : Nat) (workerLists : List (List ImportItem)) :
    ImportStats × List (List ImportItem) :=
  runWorkers retryAttempts discoverStep processStep (NewImportStats totalItems) workerLists

/-! ## Export-side bookmark processing (internal/feeds/processor.go) -/

/-- feeds.FeedDiscoveryResult from discovery.go. -/
structure FeedDiscoveryResult where
  url : String := ""
  feedURL : String := ""
  feedTitle : String := ""
  errMsg : Option String := none
deriving DecidableEq, Repr

/-- FeedDiscoveryResult.IsSuccessful from discovery.go. -/
def FeedDiscoveryResult.isSuccessful (r : FeedDiscoveryResult) : Bool :=
  r.errMsg = none && r.feedURL ≠ "" && r.feedTitle ≠ ""

/-- feeds.ProcessingStats from processor.go (counters only). -/
structure ProcessingStats where
  totalBookmarks : Int := 0
  cacheHits : Int := 0
  newDiscoveries : Int := 0
  successfulFeeds : Int := 0
  failedDiscoveries : Int := 0
deriving DecidableEq, Repr

/-- processBookmark from processor.go lines 145-186, with forward
discovery as an oracle: on a cache hit count cacheHits and answer from
the entry (with a "no feed found (cached)" error for a negative entry);
on any miss count newDiscoveries, run discovery, and write the positive
or negative result back to the cache. -/
def processBookmark (discover : String → FeedDiscoveryResult) (bm : Bookmark)
    (m : CacheMap) (maxAgeHours : Int) (now : Nat) (st : ProcessingStats) :
    FeedDiscoveryResult × CacheMap × ProcessingStats :=
  match cacheGet m bm.url maxAgeHours now with
  | some e =>
    ({ url := bm.url, feedURL := e.feedURL, feedTitle := e.feedTitle,
       errMsg := if hasFeedEntry (some e) then none else some "no feed found (cached)" },
     m, { st with cacheHits := st.cacheHits + 1 })
  | none =>
    let st2 := { st with newDiscoveries := st.newDiscoveries + 1 }
    let r := discover bm.url
    let m2 :=
      if r.isSuccessful then cacheSet m bm.url r.feedURL r.feedTitle now
      else cacheSetFailed m bm.url now
    (r, m2, st2)

/-! ## Concrete instances used by the theorems below -/

/-- Direct-child link elements of a channel and their text: what the
parseRSSFeed comment says the manual walk is restricted to. -/
def directChildLinkTexts (cs : List Xml) : List String :=
  cs.filterMap fun c =>
    match c with
    | .elem n cc => if n == "link" then some (childText cc) else none
    | .txt _ => none

/-- Channel children with link elements nested two levels deep inside
plain sub-elements, plus an item that carries its own link. -/
def bugChannelChildren : List Xml :=
  [.elem "a" [.elem "b" [.elem "link" [.txt "N1"], .elem "link" [.txt "N2"],
    .elem "link" [.txt "N3"]]],
   .elem "item" [.elem "link" [.txt "ITEM"]]]

/-- An RSS document whose channel has no direct-child link element. -/
def bugDoc : Xml := .elem "rss" [.elem "channel" bugChannelChildren]

/-- Identity gzip oracle (decompression succeeds and is the identity). -/
def gunzipId : String → Except String String := fun s => .ok s

/-- A 404 response. -/
def resp404 : HTTPResponse :=
  { statusCode := 404, status := "404 Not Found", contentEncoding := "", body := "" }

/-- A cache entry written at time zero. -/
def staleEntry : CacheEntry :=
  { url := "http://old", feedURL := "http://old/feed", feedTitle := "Old", timestamp := 0 }

/-- A cache holding only staleEntry. -/
def staleMap : CacheMap := [("http://old", staleEntry)]

/-- A moment 2000 hours after time zero, in nanoseconds. -/
def nowLate : Nat := 7200000000000000

/-- Zeroed processing statistics. -/
def statsZero : ProcessingStats := {}

/-- A forward-discovery oracle that always succeeds. -/
def discoverW : String → FeedDiscoveryResult :=
  fun u => { url := u, feedURL := "http://f", feedTitle := "F" }

/-- The bookmark whose URL has the stale cache entry. -/
def bmW : Bookmark := { url := "http://old" }

/-- A linkding client whose lookup always finds an existing bookmark. -/
def clW : LinkdingClient :=
  { getBookmarkByURL := fun _ => .ok (some { id := 7, url := "http://x", title := "X" })
    createBookmark := fun _ _ _ _ => .ok {}
    updateBookmark := fun _ _ _ _ _ => none }

/-- Dry-run options under the update duplicate policy. -/
def optsDry : ProcessOptions := { duplicateAction := "update", dryRun := true }

/-- An import item with a discovered URL. -/
def itemX : ImportItem := { title := "t", xmlURL := "http://feed", discoveredURL := "http://x" }

/-- A feed-fetch oracle that always fails. -/
def fetchNone : String → Except String Feed := fun _ => .error "fetch failed"

/-- An import item carrying a page-URL hint distinct from its feed URL. -/
def itemHint : ImportItem := { title := "t", xmlURL := "http://feed", htmlURL := "http://page" }

/-- Items are bad when their feed URL is the literal "bad". -/
def badW (it : ImportItem) : Bool := it.xmlURL == "bad"

/-- Discovery outcome for good items. -/
def dresW (it : ImportItem) : ImportItem := { it with discoveredURL := "http://d" }

/-- Bookmark-processing outcome for good items. -/
def presW (it : ImportItem) : ImportItem :=
  { it with discoveredURL := "http://d", status := .success, wasUpdated := false }

/-- A discovery step that always fails on bad items and always succeeds
on good ones. -/
def dW : Nat → ImportItem → ImportItem × Option String :=
  fun _ it => if badW it then (it, some "boom") else (dresW it, none)

/-- A bookmark-processing step that always succeeds. -/
def pW : Nat → ImportItem → ImportItem × Option String :=
  fun _ it => ({ it with status := .success, wasUpdated := false }, none)

/-- An import item carrying only a feed URL. -/
def itemW (u : String) : ImportItem := { xmlURL := u }

/-- A batch of ten items, one bad among nine good. -/
def itemsW : List ImportItem :=
  [itemW "bad", itemW "g1", itemW "g2", itemW "g3", itemW "g4",
   itemW "g5", itemW "g6", itemW "g7", itemW "g8", itemW "g9"]

/-- The batch split between two workers. -/
def wssW : List (List ImportItem) :=
  [[itemW "bad", itemW "g1", itemW "g2", itemW "g3", itemW "g4"],
   [itemW "g5", itemW "g6", itemW "g7", itemW "g8", itemW "g9"]]

/-- How one item's two steps behave across a run: its discovery step
exhausts its retries, or its bookmark-processing step exhausts its
retries, or both steps succeed. -/
inductive ItemFate where
  | failsDiscovery
  | failsProcessing
  | succeeds
deriving DecidableEq, Repr

/-- Whether a fate is the succeeding one. -/
def ItemFate.succeeded : ItemFate → Bool
  | .succeeds => true
  | _ => false

/-- Fate assignment for the concrete batch: the item whose feed URL is
"bad" always fails discovery, the one whose feed URL is "badp" always
fails bookmark processing, every other item succeeds. -/
def fateW (it : ImportItem) : ItemFate :=
  if it.xmlURL == "bad" then .failsDiscovery
  else if it.xmlURL == "badp" then .failsProcessing
  else .succeeds

/-- A discovery step honouring fateW: it always fails on the
discovery-failing item and always succeeds on every other. -/
def dW2 : Nat → ImportItem → ImportItem × Option String :=
  fun _ it =>
    match fateW it with
    | .failsDiscovery => (it, some "boom")
    | _ => (dresW it, none)

/-- A bookmark-processing step honouring fateW: it always fails on the
processing-failing item and always succeeds on every other. -/
def pW2 : Nat → ImportItem → ImportItem × Option String :=
  fun _ it =>
    if it.xmlURL == "badp" then (it, some "bust")
    else ({ it with status := .success, wasUpdated := false }, none)

/-- A batch of eleven items: one that always fails discovery and one that
always fails bookmark processing among nine that succeed. -/
def itemsW2 : List ImportItem :=
  [itemW "bad", itemW "badp", itemW "g1", itemW "g2", itemW "g3", itemW "g4",
   itemW "g5", itemW "g6", itemW "g7", itemW "g8", itemW "g9"]

/-- That batch split between two workers. -/
def wssW2 : List (List ImportItem) :=
  [[itemW "bad", itemW "badp", itemW "g1", itemW "g2", itemW "g3", itemW "g4"],
   [itemW "g5", itemW "g6", itemW "g7", itemW "g8", itemW "g9"]]

/-! ## Theorems -/

/-- Helper: Go map lookup after an upsert of the same key yields the
upserted entry. -/
theorem mapGet_mapSet_self (m : CacheMap) (url : String) (e : CacheEntry) :
    mapGet (mapSet m url e) url = some e := by
  induction m with
  | nil => simp [mapSet, mapGet]
  | cons kv rest ih =>
    obtain ⟨k, v⟩ := kv
    cases h : k == url with
    | true => simp [mapSet, mapGet, h]
    | false => simp [mapSet, mapGet, h, ih]

/-- Claim C3: for every cache key, feed URL, feed title and maxAgeHours ≥ 0,
Set followed immediately by Get (same current time) returns the just-written
entry carrying that feed URL and title, not nil. -/
theorem cache_set_then_get (m : CacheMap) (url feedURL feedTitle : String)
    (now : Nat) (maxAgeHours : Int) (h : 0 ≤ maxAgeHours) :
    cacheGet (cacheSet m url feedURL feedTitle now) url maxAgeHours now =
      some { url := url, feedURL := feedURL, feedTitle := feedTitle, timestamp := now } := by
  have hm : 0 ≤ maxAgeHours * nsPerHour := mul_nonneg h (by norm_num [nsPerHour])
  have hst : isStale (⟨url, feedURL, feedTitle, now⟩ : CacheEntry) maxAgeHours now = false := by
    simp [isStale]
    omega
  simp [cacheGet, cacheSet, mapGet_mapSet_self, hst]

/-- Witness for C3 at a concrete key, entry and age bound. -/
theorem cache_set_then_get_witness :
    (0 : Int) ≤ 0 ∧
    cacheGet (cacheSet [] "http://k" "http://k/feed" "K" 5) "http://k" 0 5 =
      some { url := "http://k", feedURL := "http://k/feed", feedTitle := "K", timestamp := 5 } :=
  ⟨by decide, cache_set_then_get [] "http://k" "http://k/feed" "K" 5 0 (by decide)⟩

/-- Claim C4: for a missing, unopenable or corrupt cache file, LoadCache on a
freshly constructed cache returns no error and leaves the entry map empty. -/
theorem loadCache_never_fails (path : String) (fs : CacheFileState)
    (h : fs = .missing ∨ fs = .unopenable ∨ fs = .corrupt) :
    loadCache fs (NewCache path) = (NewCache path, none) ∧
    (loadCache fs (NewCache path)).1.entries = [] := by
  rcases h with h | h | h <;> subst h <;> exact ⟨rfl, rfl⟩

/-- Witness for C4 at the corrupt-file state. -/
theorem loadCache_never_fails_witness :
    loadCache .corrupt (NewCache "discovery-cache.gob") = (NewCache "discovery-cache.gob", none) ∧
    (loadCache .corrupt (NewCache "discovery-cache.gob")).1.entries = [] :=
  loadCache_never_fails "discovery-cache.gob" .corrupt (Or.inr (Or.inr rfl))

/-- Claim C6, evaluated at the failing input: on a document whose channel
has no direct-child link element but whose deeper sub-elements and item
contain links, the parser returns the link "N3" that sits two levels deep
inside the channel (inside a/b) — a non-empty link that is not a direct
child of the channel, contradicting the direct-children-only rule the code
itself documents.  (It is still no item- or image-scoped link.) -/
theorem parseRSSFeed_nested_link_at_failing_input :
    directChildLinkTexts bugChannelChildren = [] ∧
    parseRSSFeed bugDoc = .ok { title := "", description := "", link := "N3", feedType := "" } := by
  exact ⟨rfl, rfl⟩

/-- Counterexample to claim C7 as stated: a 204 response has a 2xx success
status, yet FetchPage treats it as a failure, because the code compares
the status code against 200 exactly. -/
theorem fetchPage_fails_on_2xx_204 :
    fetchPage gunzipId
      (.response { statusCode := 204, status := "204 No Content", contentEncoding := "", body := "b" }) =
      .error "HTTP request failed with status 204: 204 No Content" := by
  rfl

/-- Claim C7 as amended: FetchPage fails with a status error, carrying the
status code and status text, exactly when the status code is not 200; a
200 response (here without gzip encoding) yields the body. -/
theorem fetchPage_status_check (g : String → Except String String) (r : HTTPResponse) :
    (r.statusCode ≠ 200 →
      fetchPage g (.response r) =
        .error ("HTTP request failed with status " ++ toString r.statusCode ++ ": " ++ r.status)) ∧
    (r.statusCode = 200 → strContains r.contentEncoding "gzip" = false →
      fetchPage g (.response r) = .ok r.body) := by
  constructor
  · intro h
    simp [fetchPage, h]
  · intro h hg
    simp [fetchPage, h, hg]

/-- Witness for amended C7 at a 404 response. -/
theorem fetchPage_status_check_witness :
    resp404.statusCode ≠ 200 ∧
    fetchPage gunzipId (.response resp404) =
      .error ("HTTP request failed with status " ++ toString resp404.statusCode ++ ": " ++ resp404.status) :=
  ⟨by decide, (fetchPage_status_check gunzipId resp404).1 (by decide)⟩

/-- Claim C5: reverse discovery is a three-tier first-match-wins rule: a
non-empty page hint distinct from the feed URL is used directly with no
fetch (whatever the network would answer); otherwise a fetched feed's
non-empty website link is used; otherwise the feed URL itself; and an
error occurs exactly when there is neither a usable hint nor a feed URL. -/
theorem discoverBookmarkURL_three_tier (fetch : String → Except String Feed)
    (item : ImportItem) :
    (item.htmlURL ≠ "" ∧ item.htmlURL ≠ item.xmlURL →
      DiscoverBookmarkURL fetch item =
        (item.updateWithDiscoveredData item.htmlURL item.title item.description, none, false)) ∧
    (¬(item.htmlURL ≠ "" ∧ item.htmlURL ≠ item.xmlURL) → item.xmlURL ≠ "" →
      ((∀ feed, fetch item.xmlURL = .ok feed → feed.link ≠ "" →
        DiscoverBookmarkURL fetch item =
          (item.updateWithDiscoveredData feed.link
            (if feed.title ≠ "" then feed.title else item.title)
            (if feed.description ≠ "" then feed.description else item.description),
           none, true)) ∧
       (∀ feed, fetch item.xmlURL = .ok feed → feed.link = "" →
        DiscoverBookmarkURL fetch item =
          (item.updateWithDiscoveredData item.xmlURL item.title item.description, none, true)) ∧
       (∀ e, fetch item.xmlURL = .error e →
        DiscoverBookmarkURL fetch item =
          (item.updateWithDiscoveredData item.xmlURL item.title item.description, none, true)))) ∧
    ((DiscoverBookmarkURL fetch item).2.1.isSome ↔
      ¬(item.htmlURL ≠ "" ∧ item.htmlURL ≠ item.xmlURL) ∧ item.xmlURL = "") := by
  refine ⟨?_, ?_, ?_⟩
  · intro h
    simp [DiscoverBookmarkURL, h]
  · intro h hx
    refine ⟨?_, ?_, ?_⟩
    · intro feed hf hl
      simp [DiscoverBookmarkURL, h, hx, hf, hl]
    · intro feed hf hl
      simp [DiscoverBookmarkURL, h, hx, hf, hl]
    · intro e hf
      simp [DiscoverBookmarkURL, h, hx, hf]
  · by_cases h : item.htmlURL ≠ "" ∧ item.htmlURL ≠ item.xmlURL
    · simp [DiscoverBookmarkURL, h]
    · by_cases hx : item.xmlURL ≠ ""
      · cases hf : fetch item.xmlURL with
        | ok feed =>
          by_cases hl : feed.link ≠ "" <;> simp [DiscoverBookmarkURL, h, hx, hf, hl]
        | error e =>
          simp [DiscoverBookmarkURL, h, hx, hf]
      · simp only [ne_eq, not_not] at hx
        simp only [DiscoverBookmarkURL, hx, ne_eq, not_false_eq_true]
        by_cases hh : item.htmlURL = "" <;> simp [hh]

/-- Witness for C5: tier 1 on a concrete item with a usable hint, with an
always-failing fetch oracle (the hint is used without any fetch). -/
theorem discoverBookmarkURL_three_tier_witness :
    (itemHint.htmlURL ≠ "" ∧ itemHint.htmlURL ≠ itemHint.xmlURL) ∧
    DiscoverBookmarkURL fetchNone itemHint =
      (itemHint.updateWithDiscoveredData itemHint.htmlURL itemHint.title itemHint.description,
       none, false) :=
  ⟨by decide, (discoverBookmarkURL_three_tier fetchNone itemHint).1 (by decide)⟩

/-- Counterexample to claim C8 as stated: a lookup that misses because the
entry is stale (the entry exists but is older than maxAgeHours) still
increments the new-discovery counter. -/
theorem processBookmark_stale_miss_increments :
    mapGet staleMap bmW.url = some staleEntry ∧
    isStale staleEntry 1 nowLate = true ∧
    cacheLookup staleMap bmW.url 1 nowLate = .missStale ∧
    (processBookmark discoverW bmW staleMap 1 nowLate statsZero).2.2.newDiscoveries =
      statsZero.newDiscoveries + 1 := by
  exact ⟨rfl, rfl, rfl, rfl⟩

/-- Claim C8 as amended: the new-discovery counter is incremented on every
cache miss, whether the miss comes from absence or from staleness; the two
miss kinds are nonetheless distinguishable internally (the lookup
classifier separates "no entry found" from "entry is stale"). -/
theorem processBookmark_counts_every_miss (discover : String → FeedDiscoveryResult)
    (bm : Bookmark) (m : CacheMap) (maxAgeHours : Int) (now : Nat) (st : ProcessingStats) :
    (cacheGet m bm.url maxAgeHours now = none →
      (processBookmark discover bm m maxAgeHours now st).2.2.newDiscoveries =
        st.newDiscoveries + 1) ∧
    (cacheGet m bm.url maxAgeHours now = none ↔
      cacheLookup m bm.url maxAgeHours now = .missAbsent ∨
      cacheLookup m bm.url maxAgeHours now = .missStale) ∧
    (cacheLookup m bm.url maxAgeHours now = .missAbsent ↔ mapGet m bm.url = none) ∧
    (cacheLookup m bm.url maxAgeHours now = .missStale ↔
      ∃ e, mapGet m bm.url = some e ∧ isStale e maxAgeHours now = true) := by
  refine ⟨?_, ?_, ?_, ?_⟩
  · intro h
    simp [processBookmark, h]
  · unfold cacheGet cacheLookup
    cases hm : mapGet m bm.url with
    | none => simp
    | some e => cases hs : isStale e maxAgeHours now <;> simp [hs]
  · unfold cacheLookup
    cases hm : mapGet m bm.url with
    | none => simp
    | some e => cases hs : isStale e maxAgeHours now <;> simp [hs]
  · unfold cacheLookup
    cases hm : mapGet m bm.url with
    | none => simp
    | some e => cases hs : isStale e maxAgeHours now <;> simp [hs]

/-- Witness for amended C8 at the concrete stale-entry state. -/
theorem processBookmark_counts_every_miss_witness :
    (processBookmark discoverW bmW staleMap 1 nowLate statsZero).2.2.newDiscoveries =
      statsZero.newDiscoveries + 1 :=
  (processBookmark_counts_every_miss discoverW bmW staleMap 1 nowLate statsZero).1 rfl

/-- Counterexample to claim C9 as stated: in dry-run mode under the update
policy, with a client whose lookup would report an existing bookmark, the
simulated not-found sends execution down the create branch only — the
update branch is never exercised and only the would-create log appears. -/
theorem processBookmark_dryrun_update_branch_dead :
    optsDry.dryRun = true ∧
    optsDry.duplicateAction = "update" ∧
    clW.getBookmarkByURL itemX.getFinalURL = .ok (some { id := 7, url := "http://x", title := "X" }) ∧
    (ProcessBookmark (some clW) optsDry itemX).calls = [] ∧
    (ProcessBookmark (some clW) optsDry itemX).logs = [.wouldCreateDryRun] := by
  exact ⟨rfl, rfl, rfl, rfl, rfl⟩

/-- Claim C9 as amended: in dry-run mode ProcessBookmark skips the remote
lookup, substituting a simulated not-found, so the create branch is the one
exercised for logging; no remote operation is invoked and no bookmark is
mutated, and an item with a final URL comes out successful. -/
theorem processBookmark_dryrun_create_only (client : Option LinkdingClient)
    (opts : ProcessOptions) (item : ImportItem) (h : opts.dryRun = true) :
    (ProcessBookmark client opts item).calls = [] ∧
    (item.getFinalURL ≠ "" →
      ProcessBookmark client opts item =
        { item := { item with status := .success }, errMsg := none, calls := [],
          logs := [.wouldCreateDryRun] }) := by
  by_cases hu : item.getFinalURL = ""
  · constructor
    · simp [ProcessBookmark, hu]
    · intro h2
      exact absurd hu h2
  · cases client with
    | none => constructor <;> simp [ProcessBookmark, hu, h]
    | some cl => constructor <;> simp [ProcessBookmark, hu, h]

/-- Witness for amended C9 at the concrete dry-run scenario. -/
theorem processBookmark_dryrun_create_only_witness :
    (ProcessBookmark (some clW) optsDry itemX).calls = [] ∧
    ProcessBookmark (some clW) optsDry itemX =
      { item := { itemX with status := .success }, errMsg := none, calls := [],
        logs := [.wouldCreateDryRun] } :=
  ⟨(processBookmark_dryrun_create_only (some clW) optsDry itemX rfl).1,
   (processBookmark_dryrun_create_only (some clW) optsDry itemX rfl).2 (by decide)⟩

/-- Helper: the retry loop with no remaining attempt. -/
theorem retryGo_zero {σ : Type} (op : Nat → σ → σ × Option String) (ma : Int)
    (att : Nat) (le : Option String) (s : σ) :
    retryGo op ma 0 att le s = (s, some (retryFailMsg ma le), 0) := rfl

/-- Helper: one step of the retry loop. -/
theorem retryGo_succ {σ : Type} (op : Nat → σ → σ × Option String) (ma : Int)
    (r att : Nat) (le : Option String) (s : σ) :
    retryGo op ma (r + 1) att le s =
      (match op att s with
       | (s2, none) => (s2, none, 1)
       | (s2, some e) =>
         match retryGo op ma r (att + 1) (some e) s2 with
         | (s3, res, n) => (s3, res, n + 1)) := rfl

/-- Helper: the retry loop on an operation that fails identically at every
attempt leaves the state unchanged, reports the wrapped last error, and
invokes the operation once per remaining attempt. -/
theorem retryGo_const_fail {σ : Type} (op : Nat → σ → σ × Option String)
    (ma : Int) (s : σ) (err : String) (h : ∀ a, op a s = (s, some err)) :
    ∀ (r att : Nat) (le : Option String),
      retryGo op ma (r + 1) att le s = (s, some (retryFailMsg ma (some err)), r + 1) := by
  intro r
  induction r with
  | zero =>
    intro att le
    rw [retryGo_succ, h att]
    dsimp only
    rw [retryGo_zero]
  | succ k ih =>
    intro att le
    rw [retryGo_succ, h att]
    dsimp only
    rw [ih (att + 1) (some err)]

/-- Helper: retryOperation on an always-failing operation with at least one
attempt allowed. -/
theorem retryOperation_const_fail {σ : Type} (op : Nat → σ → σ × Option String)
    (ma : Int) (s : σ) (err : String) (h : ∀ a, op a s = (s, some err)) (hma : 1 ≤ ma) :
    retryOperation op ma s = (s, some (retryFailMsg ma (some err)), ma.toNat) := by
  unfold retryOperation
  obtain ⟨r, hr⟩ : ∃ r, ma.toNat = r + 1 := ⟨ma.toNat - 1, by omega⟩
  rw [hr]
  exact retryGo_const_fail op ma s err h r 1 none

/-- Helper: retryOperation when the first attempt succeeds. -/
theorem retryOperation_first_ok {σ : Type} (op : Nat → σ → σ × Option String)
    (ma : Int) (s s2 : σ) (h : op 1 s = (s2, none)) (hma : 1 ≤ ma) :
    retryOperation op ma s = (s2, none, 1) := by
  unfold retryOperation
  obtain ⟨r, hr⟩ : ∃ r, ma.toNat = r + 1 := ⟨ma.toNat - 1, by omega⟩
  rw [hr]
  simp [retryGo, h]

/-- Helper: a retry loop that returns no error did so because some attempt
of the operation returned no error on some state. -/
theorem retryGo_none_src {σ : Type} (op : Nat → σ → σ × Option String) (ma : Int) :
    ∀ (r att : Nat) (le : Option String) (s s2 : σ) (n : Nat),
      retryGo op ma r att le s = (s2, none, n) → ∃ a s0, op a s0 = (s2, none) := by
  intro r
  induction r with
  | zero =>
    intro att le s s2 n h
    simp [retryGo] at h
  | succ k ih =>
    intro att le s s2 n h
    rw [retryGo_succ] at h
    rcases hop : op att s with ⟨s3, e⟩
    rw [hop] at h
    cases e with
    | none =>
      dsimp only at h
      simp only [Prod.mk.injEq] at h
      obtain ⟨h1, h2, h3⟩ := h
      exact ⟨att, s, by rw [hop, h1]⟩
    | some err =>
      dsimp only at h
      rcases hrec : retryGo op ma k (att + 1) (some err) s3 with ⟨s4, res, nn⟩
      rw [hrec] at h
      dsimp only at h
      simp only [Prod.mk.injEq] at h
      obtain ⟨h1, h2, h3⟩ := h
      exact ih (att + 1) (some err) s3 s2 nn (by rw [hrec, h1, h2])

/-- Helper: same fact for retryOperation. -/
theorem retryOperation_none_src {σ : Type} (op : Nat → σ → σ × Option String)
    (ma : Int) (s s2 : σ) (n : Nat) (h : retryOperation op ma s = (s2, none, n)) :
    ∃ a s0, op a s0 = (s2, none) := by
  unfold retryOperation at h
  exact retryGo_none_src op ma ma.toNat 1 none s s2 n h

/-- Helper: the worker body counts exactly one processed item per item and
never touches the total. -/
theorem processOneItem_processed_total (ra : Int)
    (d p : Nat → ImportItem → ImportItem × Option String)
    (st : ImportStats) (item : ImportItem) :
    (processOneItem ra d p st item).1.processed = st.processed + 1 ∧
    (processOneItem ra d p st item).1.total = st.total := by
  unfold processOneItem
  rcases h1 : retryOperation d ra item with ⟨item1, e1, n1⟩
  cases e1 with
  | some e => simp
  | none =>
    dsimp only
    rcases h2 : retryOperation p ra item1 with ⟨item2, e2, n2⟩
    cases e2 with
    | some e => simp
    | none =>
      cases hs : item2.status <;> simp [hs]
      cases item2.wasUpdated <;> simp

/-- Helper: when the bookmark-processing step only ever returns items in a
terminal success-or-skipped status on success, the worker body leaves every
item in a terminal status. -/
theorem processOneItem_terminal (ra : Int)
    (d p : Nat → ImportItem → ImportItem × Option String)
    (hp : ∀ a it, (p a it).2 = none →
      (p a it).1.status = .success ∨ (p a it).1.status = .skipped)
    (st : ImportStats) (item : ImportItem) :
    (processOneItem ra d p st item).2.status = .success ∨
    (processOneItem ra d p st item).2.status = .skipped ∨
    (processOneItem ra d p st item).2.status = .failed := by
  unfold processOneItem
  rcases h1 : retryOperation d ra item with ⟨item1, e1, n1⟩
  cases e1 with
  | some e => simp
  | none =>
    dsimp only
    rcases h2 : retryOperation p ra item1 with ⟨item2, e2, n2⟩
    cases e2 with
    | some e => simp
    | none =>
      obtain ⟨a, s0, hop⟩ := retryOperation_none_src p ra item1 item2 n2 h2
      have := hp a s0 (by rw [hop])
      rw [hop] at this
      simp only at this
      rcases this with hst | hst <;>
        cases hs : item2.status <;> simp_all

/-- Helper: one worker processes every queued item exactly once: it adds
the length of its share to the processed counter, preserves the total and
produces one output item per input item. -/
theorem runWorker_processed (ra : Int)
    (d p : Nat → ImportItem → ImportItem × Option String) :
    ∀ (ws : List ImportItem) (st : ImportStats),
      (runWorker ra d p st ws).1.processed = st.processed + ws.length ∧
      (runWorker ra d p st ws).1.total = st.total ∧
      (runWorker ra d p st ws).2.length = ws.length := by
  intro ws
  induction ws with
  | nil => intro st; simp [runWorker]
  | cons it rest ih =>
    intro st
    rcases hone : processOneItem ra d p st it with ⟨st2, it2⟩
    rcases hrest : runWorker ra d p st2 rest with ⟨st3, rest2⟩
    have hstep := processOneItem_processed_total ra d p st it
    rw [hone] at hstep
    have hihs := ih st2
    rw [hrest] at hihs
    simp only [runWorker, hone, hrest, List.length_cons]
    refine ⟨?_, ?_, ?_⟩
    · have h1 := hihs.1
      have h2 := hstep.1
      simp only at h1 h2 ⊢
      omega
    · have h1 := hihs.2.1
      have h2 := hstep.2
      simp only at h1 h2 ⊢
      omega
    · have h3 := hihs.2.2
      simp only at h3 ⊢
      omega

/-- Helper: the same accounting across all workers of the pool. -/
theorem runWorkers_processed (ra : Int)
    (d p : Nat → ImportItem → ImportItem × Option String) :
    ∀ (wss : List (List ImportItem)) (st : ImportStats),
      (runWorkers ra d p st wss).1.processed = st.processed + wss.flatten.length ∧
      (runWorkers ra d p st wss).1.total = st.total ∧
      (runWorkers ra d p st wss).2.flatten.length = wss.flatten.length := by
  intro wss
  induction wss with
  | nil => intro st; simp [runWorkers]
  | cons ws rest ih =>
    intro st
    rcases hone : runWorker ra d p st ws with ⟨st2, ws2⟩
    rcases hrest : runWorkers ra d p st2 rest with ⟨st3, rest2⟩
    have hstep := runWorker_processed ra d p ws st
    rw [hone] at hstep
    have hihs := ih st2
    rw [hrest] at hihs
    simp only [runWorkers, hone, hrest, List.flatten_cons, List.length_append]
    refine ⟨?_, ?_, ?_⟩
    · have h1 := hihs.1
      have h2 := hstep.1
      simp only at h1 h2 ⊢
      omega
    · have h1 := hihs.2.1
      have h2 := hstep.2.1
      simp only at h1 h2 ⊢
      omega
    · have h3 := hihs.2.2
      have h4 := hstep.2.2
      simp only at h3 h4 ⊢
      omega

/-- Helper: every item a worker emits is in a terminal status, provided the
bookmark-processing step only succeeds with a success-or-skipped status. -/
theorem runWorker_terminal (ra : Int)
    (d p : Nat → ImportItem → ImportItem × Option String)
    (hp : ∀ a it, (p a it).2 = none →
      (p a it).1.status = .success ∨ (p a it).1.status = .skipped) :
    ∀ (ws : List ImportItem) (st : ImportStats),
      ∀ it2 ∈ (runWorker ra d p st ws).2,
        it2.status = .success ∨ it2.status = .skipped ∨ it2.status = .failed := by
  intro ws
  induction ws with
  | nil => intro st it2 h; simp [runWorker] at h
  | cons it rest ih =>
    intro st it2 hmem
    rcases hone : processOneItem ra d p st it with ⟨st2, itOut⟩
    rcases hrest : runWorker ra d p st2 rest with ⟨st3, rest2⟩
    simp only [runWorker, hone, hrest, List.mem_cons] at hmem
    rcases hmem with hmem | hmem
    · subst hmem
      have := processOneItem_terminal ra d p hp st it
      rw [hone] at this
      exact this
    · have := ih st2 it2
      rw [hrest] at this
      exact this hmem

/-- Helper: terminal statuses across all workers. -/
theorem runWorkers_terminal (ra : Int)
    (d p : Nat → ImportItem → ImportItem × Option String)
    (hp : ∀ a it, (p a it).2 = none →
      (p a it).1.status = .success ∨ (p a it).1.status = .skipped) :
    ∀ (wss : List (List ImportItem)) (st : ImportStats),
      ∀ it2 ∈ (runWorkers ra d p st wss).2.flatten,
        it2.status = .success ∨ it2.status = .skipped ∨ it2.status = .failed := by
  intro wss
  induction wss with
  | nil => intro st it2 h; simp [runWorkers] at h
  | cons ws rest ih =>
    intro st it2 hmem
    rcases hone : runWorker ra d p st ws with ⟨st2, ws2⟩
    rcases hrest : runWorkers ra d p st2 rest with ⟨st3, rest2⟩
    simp only [runWorkers, hone, hrest, List.flatten_cons, List.mem_append] at hmem
    rcases hmem with hmem | hmem
    · have := runWorker_terminal ra d p hp ws st it2
      rw [hone] at this
      exact this hmem
    · have := ih st2 it2
      rw [hrest] at this
      exact this hmem

/-- Claim C1: for any batch of N items distributed by the work channel over
C ≥ 1 workers, ProcessItems processes every item exactly once: one output
item per input item, each in a terminal status (given the bookmark step
terminates successful items in success-or-skipped), and on return
Processed = Total = N. -/
theorem processItems_each_item_once (ra : Int)
    (d p : Nat → ImportItem → ImportItem × Option String)
    (items : List ImportItem) (c : Nat) (wss : List (List ImportItem))
    (_hc : 1 ≤ c) (_hlen : wss.length = c) (hperm : wss.flatten.Perm items)
    (hp : ∀ a it, (p a it).2 = none →
      (p a it).1.status = .success ∨ (p a it).1.status = .skipped) :
    (ProcessItems ra d p items.length wss).1.processed = (items.length : Int) ∧
    (ProcessItems ra d p items.length wss).1.total = (items.length : Int) ∧
    (ProcessItems ra d p items.length wss).2.flatten.length = items.length ∧
    ∀ it2 ∈ (ProcessItems ra d p items.length wss).2.flatten,
      it2.status = .success ∨ it2.status = .skipped ∨ it2.status = .failed := by
  have hlenflat : wss.flatten.length = items.length := hperm.length_eq
  have hmain := runWorkers_processed ra d p wss (NewImportStats items.length)
  refine ⟨?_, ?_, ?_, ?_⟩
  · rw [ProcessItems, hmain.1, hlenflat]
    simp [NewImportStats]
  · rw [ProcessItems, hmain.2.1]
    simp [NewImportStats]
  · rw [ProcessItems, hmain.2.2, hlenflat]
  · exact runWorkers_terminal ra d p hp wss (NewImportStats items.length)

/-- Witness for C1: ten concrete items over two workers, with concrete
discovery and bookmark steps. -/
theorem processItems_each_item_once_witness :
    ((1 : Nat) ≤ 2 ∧ wssW.length = 2 ∧ wssW.flatten.Perm itemsW) ∧
    ((ProcessItems 2 dW pW itemsW.length wssW).1.processed = (itemsW.length : Int) ∧
     (ProcessItems 2 dW pW itemsW.length wssW).1.total = (itemsW.length : Int) ∧
     (ProcessItems 2 dW pW itemsW.length wssW).2.flatten.length = itemsW.length ∧
     ∀ it2 ∈ (ProcessItems 2 dW pW itemsW.length wssW).2.flatten,
       it2.status = .success ∨ it2.status = .skipped ∨ it2.status = .failed) :=
  ⟨⟨by decide, by decide, by decide⟩,
   processItems_each_item_once 2 dW pW itemsW 2 wssW (by decide) (by decide) (by decide)
     (fun a it _ => Or.inl rfl)⟩

/-- Helper: the worker body on an item whose discovery step fails at every
attempt: the item is marked failed with the wrapped last error recorded,
the failed and processed counters are incremented, and nothing else moves. -/
theorem processOneItem_bad_case (ra : Int)
    (d p : Nat → ImportItem → ImportItem × Option String)
    (st : ImportStats) (it : ImportItem) (err : String)
    (hra : 1 ≤ ra) (hop : ∀ a, d a it = (it, some err)) :
    processOneItem ra d p st it =
      ({ st with failed := st.failed + 1, processed := st.processed + 1 },
       { it with status := .failed, errMsg := some (retryFailMsg ra (some err)) }) := by
  unfold processOneItem
  rw [retryOperation_const_fail d ra it err hop hra]

/-- Helper: the worker body on an item whose discovery and bookmark steps
both succeed at the first attempt, ending in a non-updated success status:
the imported and processed counters are incremented. -/
theorem processOneItem_good_case (ra : Int)
    (d p : Nat → ImportItem → ImportItem × Option String)
    (st : ImportStats) (it it1 it2 : ImportItem)
    (hra : 1 ≤ ra) (hd : d 1 it = (it1, none)) (hpstep : p 1 it1 = (it2, none))
    (hstat : it2.status = .success) (hupd : it2.wasUpdated = false) :
    processOneItem ra d p st it =
      ({ st with imported := st.imported + 1, processed := st.processed + 1 }, it2) := by
  unfold processOneItem
  rw [retryOperation_first_ok d ra it it1 hd hra]
  dsimp only
  rw [retryOperation_first_ok p ra it1 it2 hpstep hra]
  dsimp only
  rw [hstat]
  dsimp only
  rw [hupd]
  simp

/-- Helper: the worker body on an item whose discovery step succeeds at the
first attempt but whose bookmark-processing step fails at every attempt:
the item is marked failed with the wrapped last error recorded, the failed
and processed counters are incremented, and the worker moves on. -/
theorem processOneItem_processFail_case (ra : Int)
    (d p : Nat → ImportItem → ImportItem × Option String)
    (st : ImportStats) (it it1 : ImportItem) (err : String)
    (hra : 1 ≤ ra) (hd : d 1 it = (it1, none)) (hp : ∀ a, p a it1 = (it1, some err)) :
    processOneItem ra d p st it =
      ({ st with failed := st.failed + 1, processed := st.processed + 1 },
       { it1 with status := .failed, errMsg := some (retryFailMsg ra (some err)) }) := by
  unfold processOneItem
  rw [retryOperation_first_ok d ra it it1 hd hra]
  dsimp only
  rw [retryOperation_const_fail p ra it1 err hp hra]

/-- Helper: a worker's full accounting when each of its items always fails
its discovery step, or always fails its bookmark-processing step, or sails
through both steps, as in claim C2's scenario. -/
theorem runWorker_partition (ra : Int)
    (d p : Nat → ImportItem → ImportItem × Option String)
    (fate : ImportItem → ItemFate) (emsgD emsgP : ImportItem → String)
    (dres pres : ImportItem → ImportItem)
    (hra : 1 ≤ ra)
    (hD : ∀ a it, fate it = .failsDiscovery → d a it = (it, some (emsgD it)))
    (hP1 : ∀ a it, fate it = .failsProcessing → d a it = (dres it, none))
    (hP2 : ∀ a it, fate it = .failsProcessing → p a (dres it) = (dres it, some (emsgP it)))
    (hG1 : ∀ a it, fate it = .succeeds → d a it = (dres it, none))
    (hG2 : ∀ a it, fate it = .succeeds → p a (dres it) = (pres it, none))
    (hG3 : ∀ it, fate it = .succeeds →
      (pres it).status = .success ∧ (pres it).wasUpdated = false) :
    ∀ (ws : List ImportItem) (st : ImportStats),
      (runWorker ra d p st ws).1.failed =
        st.failed + ((ws.filter fun it => !(fate it).succeeded).length : Int) ∧
      (runWorker ra d p st ws).1.imported =
        st.imported + ((ws.filter fun it => (fate it).succeeded).length : Int) ∧
      (runWorker ra d p st ws).1.processed = st.processed + ws.length ∧
      (runWorker ra d p st ws).1.updated = st.updated ∧
      (runWorker ra d p st ws).1.skipped = st.skipped ∧
      (runWorker ra d p st ws).1.total = st.total ∧
      (runWorker ra d p st ws).2 = ws.map (fun it =>
        match fate it with
        | .failsDiscovery =>
          { it with status := ImportStatus.failed,
                    errMsg := some (retryFailMsg ra (some (emsgD it))) }
        | .failsProcessing =>
          { dres it with status := ImportStatus.failed,
                         errMsg := some (retryFailMsg ra (some (emsgP it))) }
        | .succeeds => pres it) := by
  intro ws
  induction ws with
  | nil => intro st; simp [runWorker]
  | cons it rest ih =>
    intro st
    cases hf : fate it with
    | failsDiscovery =>
      have hone := processOneItem_bad_case ra d p st it (emsgD it) hra (fun a => hD a it hf)
      rcases hrest : runWorker ra d p
          { st with failed := st.failed + 1, processed := st.processed + 1 } rest
        with ⟨st3, rest2⟩
      have hihs := ih { st with failed := st.failed + 1, processed := st.processed + 1 }
      rw [hrest] at hihs
      obtain ⟨hA, hB, hC, hD2, hE, hF, hG⟩ := hihs
      simp only at hA hB hC hD2 hE hF hG
      have hfil1 : List.filter (fun it => !(fate it).succeeded) (it :: rest) =
          it :: List.filter (fun it => !(fate it).succeeded) rest := by
        simp [hf, ItemFate.succeeded]
      have hfil2 : List.filter (fun it => (fate it).succeeded) (it :: rest) =
          List.filter (fun it => (fate it).succeeded) rest := by
        simp [hf, ItemFate.succeeded]
      simp only [runWorker, hone, hrest, hfil1, hfil2, List.length_cons, List.map_cons]
      refine ⟨?_, ?_, ?_, ?_, ?_, ?_, ?_⟩
      · omega
      · omega
      · omega
      · omega
      · omega
      · omega
      · simp only [hG, hf]
    | failsProcessing =>
      have hone := processOneItem_processFail_case ra d p st it (dres it) (emsgP it) hra
        (hP1 1 it hf) (fun a => hP2 a it hf)
      rcases hrest : runWorker ra d p
          { st with failed := st.failed + 1, processed := st.processed + 1 } rest
        with ⟨st3, rest2⟩
      have hihs := ih { st with failed := st.failed + 1, processed := st.processed + 1 }
      rw [hrest] at hihs
      obtain ⟨hA, hB, hC, hD2, hE, hF, hG⟩ := hihs
      simp only at hA hB hC hD2 hE hF hG
      have hfil1 : List.filter (fun it => !(fate it).succeeded) (it :: rest) =
          it :: List.filter (fun it => !(fate it).succeeded) rest := by
        simp [hf, ItemFate.succeeded]
      have hfil2 : List.filter (fun it => (fate it).succeeded) (it :: rest) =
          List.filter (fun it => (fate it).succeeded) rest := by
        simp [hf, ItemFate.succeeded]
      simp only [runWorker, hone, hrest, hfil1, hfil2, List.length_cons, List.map_cons]
      refine ⟨?_, ?_, ?_, ?_, ?_, ?_, ?_⟩
      · omega
      · omega
      · omega
      · omega
      · omega
      · omega
      · simp only [hG, hf]
    | succeeds =>
      have hg3it := hG3 it hf
      have hone := processOneItem_good_case ra d p st it (dres it) (pres it) hra
        (hG1 1 it hf) (hG2 1 it hf) hg3it.1 hg3it.2
      rcases hrest : runWorker ra d p
          { st with imported := st.imported + 1, processed := st.processed + 1 } rest
        with ⟨st3, rest2⟩
      have hihs := ih { st with imported := st.imported + 1, processed := st.processed + 1 }
      rw [hrest] at hihs
      obtain ⟨hA, hB, hC, hD2, hE, hF, hG⟩ := hihs
      simp only at hA hB hC hD2 hE hF hG
      have hfil1 : List.filter (fun it => !(fate it).succeeded) (it :: rest) =
          List.filter (fun it => !(fate it).succeeded) rest := by
        simp [hf, ItemFate.succeeded]
      have hfil2 : List.filter (fun it => (fate it).succeeded) (it :: rest) =
          it :: List.filter (fun it => (fate it).succeeded) rest := by
        simp [hf, ItemFate.succeeded]
      simp only [runWorker, hone, hrest, hfil1, hfil2, List.length_cons, List.map_cons]
      refine ⟨?_, ?_, ?_, ?_, ?_, ?_, ?_⟩
      · omega
      · omega
      · omega
      · omega
      · omega
      · omega
      · simp only [hG, hf]

/-- Helper: the accounting of runWorker_partition summed over all workers. -/
theorem runWorkers_partition (ra : Int)
    (d p : Nat → ImportItem → ImportItem × Option String)
    (fate : ImportItem → ItemFate) (emsgD emsgP : ImportItem → String)
    (dres pres : ImportItem → ImportItem)
    (hra : 1 ≤ ra)
    (hD : ∀ a it, fate it = .failsDiscovery → d a it = (it, some (emsgD it)))
    (hP1 : ∀ a it, fate it = .failsProcessing → d a it = (dres it, none))
    (hP2 : ∀ a it, fate it = .failsProcessing → p a (dres it) = (dres it, some (emsgP it)))
    (hG1 : ∀ a it, fate it = .succeeds → d a it = (dres it, none))
    (hG2 : ∀ a it, fate it = .succeeds → p a (dres it) = (pres it, none))
    (hG3 : ∀ it, fate it = .succeeds →
      (pres it).status = .success ∧ (pres it).wasUpdated = false) :
    ∀ (wss : List (List ImportItem)) (st : ImportStats),
      (runWorkers ra d p st wss).1.failed =
        st.failed + ((wss.flatten.filter fun it => !(fate it).succeeded).length : Int) ∧
      (runWorkers ra d p st wss).1.imported =
        st.imported + ((wss.flatten.filter fun it => (fate it).succeeded).length : Int) ∧
      (runWorkers ra d p st wss).1.processed = st.processed + wss.flatten.length ∧
      (runWorkers ra d p st wss).1.updated = st.updated ∧
      (runWorkers ra d p st wss).1.skipped = st.skipped ∧
      (runWorkers ra d p st wss).1.total = st.total ∧
      (runWorkers ra d p st wss).2 = wss.map (List.map (fun it =>
        match fate it with
        | .failsDiscovery =>
          { it with status := ImportStatus.failed,
                    errMsg := some (retryFailMsg ra (some (emsgD it))) }
        | .failsProcessing =>
          { dres it with status := ImportStatus.failed,
                         errMsg := some (retryFailMsg ra (some (emsgP it))) }
        | .succeeds => pres it)) := by
  intro wss
  induction wss with
  | nil => intro st; simp [runWorkers]
  | cons ws rest ih =>
    intro st
    rcases hone : runWorker ra d p st ws with ⟨st2, ws2⟩
    rcases hrest : runWorkers ra d p st2 rest with ⟨st3, rest2⟩
    have hstep := runWorker_partition ra d p fate emsgD emsgP dres pres hra
      hD hP1 hP2 hG1 hG2 hG3 ws st
    rw [hone] at hstep
    obtain ⟨sA, sB, sC, sD, sE, sF, sG⟩ := hstep
    simp only at sA sB sC sD sE sF sG
    have hihs := ih st2
    rw [hrest] at hihs
    obtain ⟨hA, hB, hC, hD2, hE, hF, hG⟩ := hihs
    simp only at hA hB hC hD2 hE hF hG
    simp only [runWorkers, hone, hrest, List.flatten_cons, List.filter_append,
      List.length_append, List.map_cons]
    refine ⟨?_, ?_, ?_, ?_, ?_, ?_, ?_⟩
    · omega
    · omega
    · omega
    · omega
    · omega
    · omega
    · rw [sG, hG]

/-- Claim C2: in a batch where some items' discovery step exhausts its
retries at every attempt, some items' bookmark-processing step exhausts its
retries at every attempt, and every other item goes through both steps
cleanly, every failing item — whichever step failed — comes out
StatusFailed with the wrapped last error recorded on it, every other item
reaches its own terminal success, the run is never aborted (one output per
input, counters covering the whole batch), and the counters split the batch
exactly into failures and imports. -/
theorem processItems_one_failure_does_not_abort (ra : Int)
    (d p : Nat → ImportItem → ImportItem × Option String)
    (fate : ImportItem → ItemFate) (emsgD emsgP : ImportItem → String)
    (dres pres : ImportItem → ImportItem)
    (items : List ImportItem) (wss : List (List ImportItem))
    (hra : 1 ≤ ra) (hperm : wss.flatten.Perm items)
    (hD : ∀ a it, fate it = .failsDiscovery → d a it = (it, some (emsgD it)))
    (hP1 : ∀ a it, fate it = .failsProcessing → d a it = (dres it, none))
    (hP2 : ∀ a it, fate it = .failsProcessing → p a (dres it) = (dres it, some (emsgP it)))
    (hG1 : ∀ a it, fate it = .succeeds → d a it = (dres it, none))
    (hG2 : ∀ a it, fate it = .succeeds → p a (dres it) = (pres it, none))
    (hG3 : ∀ it, fate it = .succeeds →
      (pres it).status = .success ∧ (pres it).wasUpdated = false) :
    (ProcessItems ra d p items.length wss).1.failed =
      ((items.filter fun it => !(fate it).succeeded).length : Int) ∧
    (ProcessItems ra d p items.length wss).1.imported =
      ((items.filter fun it => (fate it).succeeded).length : Int) ∧
    (ProcessItems ra d p items.length wss).1.processed = (items.length : Int) ∧
    (ProcessItems ra d p items.length wss).1.updated = 0 ∧
    (ProcessItems ra d p items.length wss).1.skipped = 0 ∧
    (ProcessItems ra d p items.length wss).1.total = (items.length : Int) ∧
    (ProcessItems ra d p items.length wss).2 = wss.map (List.map (fun it =>
      match fate it with
      | .failsDiscovery =>
        { it with status := ImportStatus.failed,
                  errMsg := some (retryFailMsg ra (some (emsgD it))) }
      | .failsProcessing =>
        { dres it with status := ImportStatus.failed,
                       errMsg := some (retryFailMsg ra (some (emsgP it))) }
      | .succeeds => pres it)) := by
  have hmain := runWorkers_partition ra d p fate emsgD emsgP dres pres hra
    hD hP1 hP2 hG1 hG2 hG3 wss (NewImportStats items.length)
  have hflen : wss.flatten.length = items.length := hperm.length_eq
  have hfb : (wss.flatten.filter fun it => !(fate it).succeeded).length =
      (items.filter fun it => !(fate it).succeeded).length :=
    (hperm.filter (fun it => !(fate it).succeeded)).length_eq
  have hfg : (wss.flatten.filter fun it => (fate it).succeeded).length =
      (items.filter fun it => (fate it).succeeded).length :=
    (hperm.filter (fun it => (fate it).succeeded)).length_eq
  obtain ⟨hA, hB, hC, hD2, hE, hF, hG⟩ := hmain
  refine ⟨?_, ?_, ?_, ?_, ?_, ?_, ?_⟩
  · rw [ProcessItems, hA, hfb]; simp [NewImportStats]
  · rw [ProcessItems, hB, hfg]; simp [NewImportStats]
  · rw [ProcessItems, hC, hflen]; simp [NewImportStats]
  · rw [ProcessItems, hD2]; simp [NewImportStats]
  · rw [ProcessItems, hE]; simp [NewImportStats]
  · rw [ProcessItems, hF]; simp [NewImportStats]
  · rw [ProcessItems, hG]

/-- Witness for C2: eleven concrete items — one whose discovery step always
fails and one whose bookmark-processing step always fails among nine that
succeed — split over two workers: exactly nine successes and two failures,
each failed item carrying its recorded error, and the run never aborted. -/
theorem processItems_one_failure_does_not_abort_witness :
    ((itemsW2.filter fun it => !(fateW it).succeeded).length = 2 ∧
     (itemsW2.filter fun it => (fateW it).succeeded).length = 9 ∧
     itemsW2.length = 11) ∧
    ((ProcessItems 2 dW2 pW2 itemsW2.length wssW2).1.failed =
       ((itemsW2.filter fun it => !(fateW it).succeeded).length : Int) ∧
     (ProcessItems 2 dW2 pW2 itemsW2.length wssW2).1.imported =
       ((itemsW2.filter fun it => (fateW it).succeeded).length : Int) ∧
     (ProcessItems 2 dW2 pW2 itemsW2.length wssW2).1.processed = (itemsW2.length : Int) ∧
     (ProcessItems 2 dW2 pW2 itemsW2.length wssW2).1.updated = 0 ∧
     (ProcessItems 2 dW2 pW2 itemsW2.length wssW2).1.skipped = 0 ∧
     (ProcessItems 2 dW2 pW2 itemsW2.length wssW2).1.total = (itemsW2.length : Int) ∧
     (ProcessItems 2 dW2 pW2 itemsW2.length wssW2).2 = wssW2.map (List.map (fun it =>
       match fateW it with
       | .failsDiscovery =>
         { it with status := ImportStatus.failed,
                   errMsg := some (retryFailMsg 2 (some "boom")) }
       | .failsProcessing =>
         { dresW it with status := ImportStatus.failed,
                         errMsg := some (retryFailMsg 2 (some "bust")) }
       | .succeeds => presW it))) :=
  ⟨⟨by decide, by decide, by decide⟩,
   processItems_one_failure_does_not_abort 2 dW2 pW2 fateW
     (fun _ => "boom") (fun _ => "bust") dresW presW
     itemsW2 wssW2 (by decide) (by decide)
     (fun a it h => by simp [dW2, h])
     (fun a it h => by simp [dW2, h])
     (fun a it h => by
       unfold fateW at h
       by_cases h1 : it.xmlURL == "bad"
       · simp [h1] at h
       · by_cases h2 : it.xmlURL == "badp"
         · simp [pW2, dresW, h2]
         · simp [h1, h2] at h)
     (fun a it h => by simp [dW2, h])
     (fun a it h => by
       unfold fateW at h
       by_cases h1 : it.xmlURL == "bad"
       · simp [h1] at h
       · by_cases h2 : it.xmlURL == "badp"
         · simp [h1, h2] at h
         · simp [pW2, dresW, presW, h2])
     (fun it h => ⟨rfl, rfl⟩)⟩

/-- Claim C10: with a non-positive maxAttempts, retryOperation returns a
non-nil "operation failed after N attempts" error without invoking the
operation even once (the state is untouched and the invocation count is
zero); consequently ProcessItems with a non-positive RetryAttempts marks
every item in the batch failed with that error, independently of the
discovery and bookmark steps, which are never attempted. -/
theorem retryOperation_nonpositive_fails_without_invoking :
    (∀ {σ : Type} (op : Nat → σ → σ × Option String) (ma : Int) (s : σ), ma ≤ 0 →
      retryOperation op ma s = (s, some (retryFailMsg ma none), 0)) ∧
    (∀ (ra : Int) (d p : Nat → ImportItem → ImportItem × Option String)
       (n : Nat) (wss : List (List ImportItem)), ra ≤ 0 →
      (ProcessItems ra d p n wss).1.failed = (wss.flatten.length : Int) ∧
      (ProcessItems ra d p n wss).1.processed = (wss.flatten.length : Int) ∧
      (ProcessItems ra d p n wss).1.imported = 0 ∧
      (ProcessItems ra d p n wss).1.updated = 0 ∧
      (ProcessItems ra d p n wss).1.skipped = 0 ∧
      (ProcessItems ra d p n wss).1.total = (n : Int) ∧
      (ProcessItems ra d p n wss).2 = wss.map (List.map (fun it =>
        { it with status := ImportStatus.failed,
                  errMsg := some (retryFailMsg ra none) }))) := by
  have hzero : ∀ {σ : Type} (op : Nat → σ → σ × Option String) (ma : Int) (s : σ), ma ≤ 0 →
      retryOperation op ma s = (s, some (retryFailMsg ma none), 0) := by
    intro σ op ma s hma
    unfold retryOperation
    have h0 : ma.toNat = 0 := by omega
    rw [h0, retryGo_zero]
  refine ⟨hzero, ?_⟩
  intro ra d p n wss hra
  have hone : ∀ (st : ImportStats) (it : ImportItem),
      processOneItem ra d p st it =
        ({ st with failed := st.failed + 1, processed := st.processed + 1 },
         { it with status := ImportStatus.failed, errMsg := some (retryFailMsg ra none) }) := by
    intro st it
    unfold processOneItem
    rw [hzero d ra it hra]
  have hworker : ∀ (ws : List ImportItem) (st : ImportStats),
      (runWorker ra d p st ws).1.failed = st.failed + ws.length ∧
      (runWorker ra d p st ws).1.processed = st.processed + ws.length ∧
      (runWorker ra d p st ws).1.imported = st.imported ∧
      (runWorker ra d p st ws).1.updated = st.updated ∧
      (runWorker ra d p st ws).1.skipped = st.skipped ∧
      (runWorker ra d p st ws).1.total = st.total ∧
      (runWorker ra d p st ws).2 = ws.map (fun it =>
        { it with status := ImportStatus.failed,
                  errMsg := some (retryFailMsg ra none) }) := by
    intro ws
    induction ws with
    | nil => intro st; simp [runWorker]
    | cons it rest ih =>
      intro st
      rcases hrest : runWorker ra d p
          { st with failed := st.failed + 1, processed := st.processed + 1 } rest
        with ⟨st3, rest2⟩
      have hihs := ih { st with failed := st.failed + 1, processed := st.processed + 1 }
      rw [hrest] at hihs
      obtain ⟨hA, hB, hC, hD, hE, hF, hG⟩ := hihs
      simp only at hA hB hC hD hE hF hG
      simp only [runWorker, hone st it, hrest, List.length_cons, List.map_cons]
      refine ⟨by omega, by omega, by omega, by omega, by omega, by omega, by rw [hG]⟩
  have hworkers : ∀ (wss2 : List (List ImportItem)) (st : ImportStats),
      (runWorkers ra d p st wss2).1.failed = st.failed + wss2.flatten.length ∧
      (runWorkers ra d p st wss2).1.processed = st.processed + wss2.flatten.length ∧
      (runWorkers ra d p st wss2).1.imported = st.imported ∧
      (runWorkers ra d p st wss2).1.updated = st.updated ∧
      (runWorkers ra d p st wss2).1.skipped = st.skipped ∧
      (runWorkers ra d p st wss2).1.total = st.total ∧
      (runWorkers ra d p st wss2).2 = wss2.map (List.map (fun it =>
        { it with status := ImportStatus.failed,
                  errMsg := some (retryFailMsg ra none) })) := by
    intro wss2
    induction wss2 with
    | nil => intro st; simp [runWorkers]
    | cons ws rest ih =>
      intro st
      rcases hw : runWorker ra d p st ws with ⟨st2, ws2⟩
      rcases hrest : runWorkers ra d p st2 rest with ⟨st3, rest2⟩
      have hstep := hworker ws st
      rw [hw] at hstep
      obtain ⟨sA, sB, sC, sD, sE, sF, sG⟩ := hstep
      simp only at sA sB sC sD sE sF sG
      have hihs := ih st2
      rw [hrest] at hihs
      obtain ⟨hA, hB, hC, hD, hE, hF, hG⟩ := hihs
      simp only at hA hB hC hD hE hF hG
      simp only [runWorkers, hw, hrest, List.flatten_cons, List.length_append, List.map_cons]
      refine ⟨by omega, by omega, by omega, by omega, by omega, by omega, by rw [sG, hG]⟩
  obtain ⟨hA, hB, hC, hD, hE, hF, hG⟩ := hworkers wss (NewImportStats n)
  refine ⟨?_, ?_, ?_, ?_, ?_, ?_, ?_⟩
  · rw [ProcessItems, hA]; simp [NewImportStats]
  · rw [ProcessItems, hB]; simp [NewImportStats]
  · rw [ProcessItems, hC]; simp [NewImportStats]
  · rw [ProcessItems, hD]; simp [NewImportStats]
  · rw [ProcessItems, hE]; simp [NewImportStats]
  · rw [ProcessItems, hF]; simp [NewImportStats]
  · rw [ProcessItems, hG]

/-- Witness for C10: maxAttempts 0 on a concrete operation and state, and
a two-worker batch with RetryAttempts 0: every item failed, nothing run. -/
theorem retryOperation_nonpositive_fails_without_invoking_witness :
    retryOperation dW 0 (itemW "g1") = (itemW "g1", some (retryFailMsg 0 none), 0) ∧
    (ProcessItems 0 dW pW 3 [[itemW "a"], [itemW "b"]]).1.failed = ((2 : Nat) : Int) ∧
    (ProcessItems 0 dW pW 3 [[itemW "a"], [itemW "b"]]).2 =
      [[itemW "a"], [itemW "b"]].map (List.map (fun it =>
        { it with status := ImportStatus.failed,
                  errMsg := some (retryFailMsg 0 none) })) :=
  ⟨retryOperation_nonpositive_fails_without_invoking.1 dW 0 (itemW "g1") (by decide),
   by
    have h := retryOperation_nonpositive_fails_without_invoking.2 0 dW pW 3
      [[itemW "a"], [itemW "b"]] (by decide)
    exact ⟨h.1, h.2.2.2.2.2.2⟩⟩

end LinkdingToOpml
